import Mathlib

/-!
Verification development for the openai-proxy gateway (`main.go`).

The Go program is shallowly embedded: pure helpers become Lean functions;
effects of external libraries (the Lua interpreter `gopher-lua`, the gzip and
brotli decompressors, the upstream HTTP call, file reads) are passed in as
explicit outcome values, so each theorem quantifies over every behaviour the
library call could exhibit.  `http.Header` (a Go map from key to value list)
is modelled as an association list with unique keys standing for the map;
where Go map iteration order is unspecified the list order is used, and
theorems avoid depending on it.
-/

namespace OpenAIProxy

/-- Go `http.Header`: map from header key to ordered list of values. -/
abbrev Header := List (String × List String)

/-- Character-list prefix test (Bool-valued, for Go `strings` helpers). -/
def isPrefixChars : List Char → List Char → Bool
  | [], _ => true
  | _ :: _, [] => false
  | c :: cs, d :: ds => c == d && isPrefixChars cs ds

/-- Helper for `goContains`: does `needle` occur in the haystack? -/
def containsAux (needle : List Char) : List Char → Bool
  | [] => isPrefixChars needle []
  | c :: rest => isPrefixChars needle (c :: rest) || containsAux needle rest

/-- Go `strings.Contains(s, sub)`. -/
def goContains (s sub : String) : Bool :=
  containsAux sub.toList s.toList

/-- Go `strings.ToLower` (ASCII; the program only lower-cases header keys). -/
def goToLower (s : String) : String :=
  String.mk (s.toList.map Char.toLower)

/-- Go `textproto` valid header-field byte (token characters). -/
def isTokenChar (c : Char) : Bool :=
  c.isAlpha || c.isDigit ||
    [33, 35, 36, 37, 38, 39, 42, 43, 45, 46, 94, 95, 96, 124, 126].contains c.toNat

/-- Case transformation of `textproto.CanonicalMIMEHeaderKey`: upper-case the
first letter and every letter following a dash, lower-case the rest. -/
def canonicalizeChars : Bool → List Char → List Char
  | _, [] => []
  | upper, c :: cs =>
    let c2 := if upper then c.toUpper else c.toLower
    c2 :: canonicalizeChars (c == '-') cs

/-- Go `textproto.CanonicalMIMEHeaderKey`: returns the key unchanged if it
contains an invalid byte, otherwise canonicalizes its case. -/
def canonicalKey (s : String) : String :=
  if s.toList.all isTokenChar then String.mk (canonicalizeChars true s.toList) else s

/-- Raw Go map lookup on the association-list representation. -/
def assocFind (h : Header) (k : String) : Option (List String) :=
  (h.find? (fun e => e.1 == k)).map (·.2)

/-- Raw Go map assignment `h[k] = vs` (replace in place, or append). -/
def assocSet (h : Header) (k : String) (vs : List String) : Header :=
  if h.any (fun e => e.1 == k) then
    h.map (fun e => if e.1 == k then (k, vs) else e)
  else h ++ [(k, vs)]

/-- `http.Header.Get`: first value under the canonical key, or `""`. -/
def headerGet (h : Header) (k : String) : String :=
  match assocFind h (canonicalKey k) with
  | some (v :: _) => v
  | _ => ""

/-- `http.Header.Add`: append a value under the canonical key. -/
def headerAdd (h : Header) (k v : String) : Header :=
  let ck := canonicalKey k
  if h.any (fun e => e.1 == ck) then
    h.map (fun e => if e.1 == ck then (e.1, e.2 ++ [v]) else e)
  else h ++ [(ck, [v])]

/-- `http.Header.Set`: replace all values under the canonical key. -/
def headerSet (h : Header) (k v : String) : Header :=
  assocSet h (canonicalKey k) [v]

/-- `http.Header.Del`: delete the canonical key. -/
def headerDel (h : Header) (k : String) : Header :=
  h.filter (fun e => !(e.1 == canonicalKey k))

/-! ## Lua hook layer (`LuaHookManager` and conversions, main.go 538-726)

A `gopher-lua` value.  Tables are entry lists in `ForEach` order. -/

inductive LuaValue where
  | lnil
  | lbool (b : Bool)
  | lnum (n : Int)
  | lstr (s : String)
  | ltable (entries : List (LuaValue × LuaValue))

/-- `lua.LValue.String()` as used on header table contents. -/
def lvString : LuaValue → String
  | .lnil => "nil"
  | .lbool true => "true"
  | .lbool false => "false"
  | .lnum n => toString n
  | .lstr s => s
  | .ltable _ => "table"

/-- Is this Lua value the string key `k`? -/
def isStrKey (v : LuaValue) (k : String) : Bool :=
  match v with
  | .lstr s => s == k
  | _ => false

/-- `LTable.RawSetString` on the entry-list representation (replace or append). -/
def rawSetString (t : List (LuaValue × LuaValue)) (k : String) (v : LuaValue) :
    List (LuaValue × LuaValue) :=
  if t.any (fun e => isStrKey e.1 k) then
    t.map (fun e => if isStrKey e.1 k then (LuaValue.lstr k, v) else e)
  else t ++ [(LuaValue.lstr k, v)]

/-- Pair the elements of a list with indices `i, i+1, ...`. -/
def enumFrom1 : Int → List String → List (Int × String)
  | _, [] => []
  | i, v :: vs => (i, v) :: enumFrom1 (i + 1) vs

/-- `httpHeaderToLuaTable` (main.go 600-610): lower-cases each key and stores
the value list as a 1-indexed Lua array. -/
def httpHeaderToLuaTable (h : Header) : List (LuaValue × LuaValue) :=
  h.foldl
    (fun t e =>
      rawSetString t (goToLower e.1)
        (.ltable ((enumFrom1 1 e.2).map fun p => (.lnum p.1, .lstr p.2))))
    []

/-- `luaTableToHttpHeader` (main.go 613-626): every table-valued entry becomes
a header entry keyed by the Lua key stringified, with the inner table values
stringified in order; non-table values are skipped. -/
def luaTableToHttpHeader (t : List (LuaValue × LuaValue)) : Header :=
  t.foldl
    (fun hs kv =>
      match kv.2 with
      | .ltable vt => assocSet hs (lvString kv.1) (vt.map fun p => lvString p.2)
      | _ => hs)
    []

/-- The state of `LuaHookManager` (main.go 539-545); the lock is not modelled
(claims here are sequential). -/
structure LuaHookManager where
  luaScript : String
  enabled : Bool
  hasRequest : Bool
  hasResponse : Bool
deriving DecidableEq, Repr

/-- Outcome of running the loaded script in a fresh sandbox and calling the
entry point: `DoString` failure, `PCall` failure, or the two values at the top
of the stack after the call (adjusted to arity 2, padded with nil). -/
inductive LuaOutcome where
  | loadErr
  | callErr
  | ok (retBody retHeaders : LuaValue)

/-- `LuaHookManager.ExecuteRequestHook` (main.go 629-676).  The sandbox run is
given by `o`.  All failure branches fall back to the inputs with a nil error;
a string result replaces the body, a table result replaces the headers,
independently of each other. -/
def ExecuteRequestHook (lhm : LuaHookManager) (o : LuaOutcome) (body : String)
    (headers : Header) : String × Header × Option Unit :=
  if !lhm.enabled || !lhm.hasRequest || lhm.luaScript == "" then
    (body, headers, none)
  else
    match o with
    | .loadErr => (body, headers, none)
    | .callErr => (body, headers, none)
    | .ok retB retH =>
      let resultBody := match retB with | .lstr s => s | _ => body
      let resultHeaders := match retH with | .ltable t => luaTableToHttpHeader t | _ => headers
      (resultBody, resultHeaders, none)

/-- `LuaHookManager.ExecuteResponseHook` (main.go 679-726), symmetric. -/
def ExecuteResponseHook (lhm : LuaHookManager) (o : LuaOutcome) (body : String)
    (headers : Header) : String × Header × Option Unit :=
  if !lhm.enabled || !lhm.hasResponse || lhm.luaScript == "" then
    (body, headers, none)
  else
    match o with
    | .loadErr => (body, headers, none)
    | .callErr => (body, headers, none)
    | .ok retB retH =>
      let resultBody := match retB with | .lstr s => s | _ => body
      let resultHeaders := match retH with | .ltable t => luaTableToHttpHeader t | _ => headers
      (resultBody, resultHeaders, none)

/-- The three `LoadHookScript` failure reasons. -/
inductive LoadErr where
  | unreadable
  | syntaxInvalid
  | noEntryPoints
deriving DecidableEq, Repr

/-- Outcome of the load-time validation run: `DoString` failure, or success
with the two entry-point discovery flags. -/
inductive LoadOutcome where
  | doStringErr
  | ok (hasReq hasResp : Bool)
deriving DecidableEq, Repr

/-- `LuaHookManager.LoadHookScript` (main.go 552-590).  `fileContent` is the
result of `os.ReadFile` (`none` = read error); `o` is the validation run. -/
def LoadHookScript (lhm : LuaHookManager) (fileContent : Option String)
    (o : LoadOutcome) : LuaHookManager × Option LoadErr :=
  match fileContent with
  | none => (lhm, some .unreadable)
  | some script =>
    match o with
    | .doStringErr => (lhm, some .syntaxInvalid)
    | .ok hasReq hasResp =>
      if !hasReq && !hasResp then (lhm, some .noEntryPoints)
      else ({ luaScript := script, enabled := true,
              hasRequest := hasReq, hasResponse := hasResp }, none)

/-! ## Content codec (`decompressBody`, main.go 893-929) -/

/-- Outcome of the gzip path: `gzip.NewReader` failure, `io.ReadAll` failure,
or the decompressed bytes. -/
inductive GzipOutcome where
  | newReaderErr
  | readErr
  | ok (s : String)
deriving DecidableEq, Repr

/-- Outcome of the brotli path: `brotli.NewReader` cannot fail in Go (it
returns no error), so only the drain can fail. -/
inductive BrotliOutcome where
  | readErr
  | ok (s : String)
deriving DecidableEq, Repr

/-- `decompressBody` (main.go 893-929): gzip and br are decompressed (failure
at any stage returns the original bytes plus an error); every other encoding
is a pass-through with a nil error. -/
def decompressBody (gz : GzipOutcome) (br : BrotliOutcome) (body : String)
    (encoding : String) : String × Option Unit :=
  if encoding == "gzip" then
    match gz with
    | .newReaderErr => (body, some ())
    | .readErr => (body, some ())
    | .ok s => (s, none)
  else if encoding == "br" then
    match br with
    | .readErr => (body, some ())
    | .ok s => (s, none)
  else (body, none)

/-! ## Bounded trace history (main.go 824-825, 1088-1091, 1171-1174) -/

/-- `tracesMax` (main.go 825): keep only the latest 100 traces. -/
def tracesMax : Nat := 100

/-- One append-with-eviction step:
`traces = append(traces, trace); if len(traces) > tracesMax { traces = traces[len(traces)-tracesMax:] }`. -/
def insertTrace {α : Type} (ts : List α) (t : α) : List α :=
  let ts2 := ts ++ [t]
  if ts2.length > tracesMax then ts2.drop (ts2.length - tracesMax) else ts2

/-- Inserting a whole sequence of traces, starting from the empty history. -/
def insertAll {α : Type} (l : List α) : List α :=
  l.foldl insertTrace []

/-! ## JSON (`encoding/json` as used by `promptHook`, main.go 759-798)

The subset of `encoding/json` the program exercises: `Unmarshal` into
`map[string]interface{}` and `Marshal` of the resulting value.  Numbers are
modelled as integers (the claims never touch fractional numbers; a body the
parser rejects simply takes `promptHook`'s not-valid-JSON branch). -/

inductive Json where
  | null
  | jbool (b : Bool)
  | jnum (n : Int)
  | jstr (s : String)
  | jarr (elems : List Json)
  | jobj (fields : List (String × Json))

instance : Inhabited Json := ⟨Json.null⟩

/-- JSON whitespace. -/
def isJsonWs (c : Char) : Bool :=
  c == ' ' || c == '\t' || c == '\n' || c == '\r'

/-- Skip JSON whitespace. -/
def skipWs (cs : List Char) : List Char :=
  cs.dropWhile isJsonWs

/-- Parse the remainder of a JSON string literal (after the opening quote),
handling the single-character escapes; `\u` escapes are outside the modelled
subset (such bodies fall to the not-valid-JSON branch). -/
def parseStringAux : Nat → List Char → String → Option (String × List Char)
  | 0, _, _ => none
  | _ + 1, [], _ => none
  | f + 1, c :: rest, acc =>
    if c == '"' then some (acc, rest)
    else if c == '\\' then
      match rest with
      | [] => none
      | e :: rest2 =>
        let esc : Option Char :=
          if e == '"' then some '"'
          else if e == '\\' then some '\\'
          else if e == '/' then some '/'
          else if e == 'n' then some '\n'
          else if e == 't' then some '\t'
          else if e == 'r' then some '\r'
          else if e == 'b' then some (Char.ofNat 8)
          else if e == 'f' then some (Char.ofNat 12)
          else none
        match esc with
        | some d => parseStringAux f rest2 (acc.push d)
        | none => none
    else if c.toNat < 32 then none
    else parseStringAux f rest (acc.push c)

/-- Parse a run of decimal digits. -/
def parseDigits : Nat → List Char → Nat → Option (Nat × List Char)
  | 0, _, _ => none
  | _ + 1, [], acc => some (acc, [])
  | f + 1, c :: rest, acc =>
    if c.isDigit then parseDigits f rest (acc * 10 + (c.toNat - 48))
    else some (acc, c :: rest)

/-- Does the character list start with the given keyword? -/
def dropKeyword (kw : List Char) (cs : List Char) : Option (List Char) :=
  match kw, cs with
  | [], rest => some rest
  | _ :: _, [] => none
  | k :: ks, c :: rest => if k == c then dropKeyword ks rest else none

/-- Go map assignment for object fields (duplicate keys: last wins). -/
def assocSetJson (fields : List (String × Json)) (k : String) (v : Json) :
    List (String × Json) :=
  if fields.any (fun e => e.1 == k) then
    fields.map (fun e => if e.1 == k then (k, v) else e)
  else fields ++ [(k, v)]

mutual

/-- Fueled recursive-descent parse of one JSON value. -/
def parseVal : Nat → List Char → Option (Json × List Char)
  | 0, _ => none
  | f + 1, cs =>
    match skipWs cs with
    | [] => none
    | c :: rest =>
      if c == 'n' then (dropKeyword ['u', 'l', 'l'] rest).map (fun r => (Json.null, r))
      else if c == 't' then (dropKeyword ['r', 'u', 'e'] rest).map (fun r => (Json.jbool true, r))
      else if c == 'f' then (dropKeyword ['a', 'l', 's', 'e'] rest).map (fun r => (Json.jbool false, r))
      else if c == '"' then (parseStringAux (rest.length + 1) rest "").map (fun p => (Json.jstr p.1, p.2))
      else if c == '-' then
        match rest with
        | d :: rest2 =>
          if d.isDigit then
            match parseDigits (rest2.length + 1) rest2 (d.toNat - 48) with
            | some (n, rest3) =>
              match rest3 with
              | x :: _ => if x == '.' || x == 'e' || x == 'E' then none else some (Json.jnum (-(n : Int)), rest3)
              | [] => some (Json.jnum (-(n : Int)), rest3)
            | none => none
          else none
        | [] => none
      else if c.isDigit then
        match parseDigits (rest.length + 1) rest (c.toNat - 48) with
        | some (n, rest3) =>
          match rest3 with
          | x :: _ => if x == '.' || x == 'e' || x == 'E' then none else some (Json.jnum (n : Int), rest3)
          | [] => some (Json.jnum (n : Int), rest3)
        | none => none
      else if c == '[' then
        match skipWs rest with
        | ']' :: rest2 => some (Json.jarr [], rest2)
        | _ => parseItems f (skipWs rest) []
      else if c == '{' then
        match skipWs rest with
        | '}' :: rest2 => some (Json.jobj [], rest2)
        | _ => parseFields f (skipWs rest) []
      else none

/-- Parse the elements of a non-empty array (accumulating in order). -/
def parseItems : Nat → List Char → List Json → Option (Json × List Char)
  | 0, _, _ => none
  | f + 1, cs, acc =>
    match parseVal f cs with
    | none => none
    | some (v, rest) =>
      match skipWs rest with
      | ',' :: rest2 => parseItems f rest2 (acc ++ [v])
      | ']' :: rest2 => some (Json.jarr (acc ++ [v]), rest2)
      | _ => none

/-- Parse the members of a non-empty object (Go map semantics for duplicates). -/
def parseFields : Nat → List Char → List (String × Json) → Option (Json × List Char)
  | 0, _, _ => none
  | f + 1, cs, acc =>
    match skipWs cs with
    | '"' :: rest =>
      match parseStringAux (rest.length + 1) rest "" with
      | none => none
      | some (k, rest2) =>
        match skipWs rest2 with
        | ':' :: rest3 =>
          match parseVal f rest3 with
          | none => none
          | some (v, rest4) =>
            match skipWs rest4 with
            | ',' :: rest5 => parseFields f rest5 (assocSetJson acc k v)
            | '}' :: rest5 => some (Json.jobj (assocSetJson acc k v), rest5)
            | _ => none
        | _ => none
    | _ => none

end

/-- `json.Unmarshal` of a whole input: one value followed only by whitespace. -/
def jsonParse (s : String) : Option Json :=
  match parseVal (2 * s.length + 2) s.toList with
  | some (v, rest) => if skipWs rest = [] then some v else none
  | none => none

/-- One hexadecimal digit (lower case), as emitted by Go's JSON encoder. -/
def hexDigit (n : Nat) : Char :=
  if n < 10 then Char.ofNat (48 + n) else Char.ofNat (87 + n)

/-- Escape one character the way Go's `encoding/json` encoder does (HTML
escaping on, as in `json.Marshal`). -/
def escapeChar (c : Char) : String :=
  if c == '"' then "\\\""
  else if c == '\\' then "\\\\"
  else if c == '<' then "\\u003c"
  else if c == '>' then "\\u003e"
  else if c == '&' then "\\u0026"
  else if c == '\n' then "\\n"
  else if c == '\r' then "\\r"
  else if c == '\t' then "\\t"
  else if c.toNat < 32 then
    "\\u00" ++ String.mk [hexDigit (c.toNat / 16), hexDigit (c.toNat % 16)]
  else if c.toNat == 8232 then "\\u2028"
  else if c.toNat == 8233 then "\\u2029"
  else String.singleton c

/-- Join strings with a separator. -/
def joinSep (sep : String) : List String → String
  | [] => ""
  | [x] => x
  | x :: y :: rest => x ++ sep ++ joinSep sep (y :: rest)

/-- Marshal a string literal. -/
def marshalString (s : String) : String :=
  "\"" ++ joinSep "" (s.toList.map escapeChar) ++ "\""

/-- Byte-wise (codepoint-wise) strict order on character lists. -/
def charsLt : List Char → List Char → Bool
  | [], [] => false
  | [], _ :: _ => true
  | _ :: _, [] => false
  | c :: cs, d :: ds =>
    if c.toNat < d.toNat then true
    else if d.toNat < c.toNat then false
    else charsLt cs ds

/-- Go's byte-wise string order (UTF-8 byte order equals codepoint order). -/
def strLtB (a b : String) : Bool :=
  charsLt a.toList b.toList

/-- Insert a field into a key-sorted field list (Go's `Marshal` sorts map
keys byte-wise). -/
def insertSorted (p : String × Json) : List (String × Json) → List (String × Json)
  | [] => [p]
  | q :: qs => if strLtB p.1 q.1 then p :: q :: qs else q :: insertSorted p qs

/-- Sort object fields by key, as Go's `Marshal` does for maps. -/
def sortFields (l : List (String × Json)) : List (String × Json) :=
  l.foldr insertSorted []

/-- Fueled compact serialization in Go's `json.Marshal` format. -/
def goMarshalF : Nat → Json → String
  | 0, _ => ""
  | _ + 1, .null => "null"
  | _ + 1, .jbool true => "true"
  | _ + 1, .jbool false => "false"
  | _ + 1, .jnum n => toString n
  | _ + 1, .jstr s => marshalString s
  | f + 1, .jarr l => "[" ++ joinSep "," (l.map (goMarshalF f)) ++ "]"
  | f + 1, .jobj m =>
    "\x7b" ++
      joinSep ","
        ((sortFields m).map fun kv => marshalString kv.1 ++ ":" ++ goMarshalF f kv.2) ++
      "\x7d"

/-- `json.Marshal` (compact output, sorted object keys) of a value obtained by
parsing a string of length `origLen`: the parse consumes at least one bracket
per nesting level, so `origLen + 2` fuel never runs out. -/
def goMarshalOf (origLen : Nat) (j : Json) : String :=
  goMarshalF (origLen + 2) j

/-! ## Built-in digest hook (`messagesHook` / `promptHook`, main.go 739-798) -/

/-- Go map lookup on object fields. -/
def jsonLookup (fields : List (String × Json)) (k : String) : Option Json :=
  (fields.find? (fun e => e.1 == k)).map (·.2)

/-- Are all elements of the array JSON objects (`map[string]interface{}`)? -/
def allObjects : List Json → Bool
  | [] => true
  | .jobj _ :: rest => allObjects rest
  | _ => false

/-- Extract the field map of an object element. -/
def jsonObjFields : Json → List (String × Json)
  | .jobj f => f
  | _ => []

/-- `messagesHook` (main.go 739-757): builds a diagnostic log line and returns
the messages unchanged with a nil error. -/
def messagesHook (messages : List (List (String × Json))) :
    List (List (String × Json)) × Option Unit :=
  (messages, none)

/-- `promptHook` (main.go 759-798).  Branch structure of the Go code:
not-valid-JSON and bad-message-shape inputs return early (without reaching the
Lua hook); a `messages` array of objects is passed through `messagesHook`,
written back, and the body re-marshalled (`json.Marshal` of a value produced
by `Unmarshal` cannot fail, so the marshal-error branch is dead); finally the
Lua request hook runs on the (possibly re-marshalled) body. -/
def promptHook (lhm : LuaHookManager) (o : LuaOutcome) (body : String)
    (headers : Header) : String × Header × Option Unit :=
  match jsonParse body with
  | none => (body, headers, none)
  | some (.jobj fields) =>
    match jsonLookup fields "messages" with
    | some (.jarr msgs) =>
      if allObjects msgs then
        let mh := messagesHook (msgs.map jsonObjFields)
        match mh.2 with
        | some e => (body, headers, some e)
        | none =>
          let fields2 := assocSetJson fields "messages" (.jarr (mh.1.map Json.jobj))
          let body2 := goMarshalOf body.length (.jobj fields2)
          ExecuteRequestHook lhm o body2 headers
      else (body, headers, none)
    | some _ => ExecuteRequestHook lhm o body headers
    | none => ExecuteRequestHook lhm o body headers
  | some .null => ExecuteRequestHook lhm o body headers
  | some _ => (body, headers, none)

/-- The default package-level `responseHook` (main.go 736): never replaced in
`main`, so always the identity with a nil error. -/
def responseHook (body : String) (headers : Header) : String × Header × Option Unit :=
  (body, headers, none)

/-! ## Forwarding pipeline (`startOpenAIForwarder` handler, main.go 953-1180) -/

/-- Go `strings.HasPrefix`. -/
def goStartsWith (s pre : String) : Bool :=
  isPrefixChars pre.toList s.toList

/-- The client side of `http.ResponseWriter`: `pending` is the live header
map returned by `w.Header()`; `committed` is the status code and the snapshot
of the headers at the moment `WriteHeader` first ran (what actually reaches
the wire); `wire` is the body bytes written.  Mutating `pending` after the
first `WriteHeader` has no effect on the wire. -/
structure ClientConn where
  pending : Header
  committed : Option (Nat × Header)
  wire : String
deriving DecidableEq, Repr

/-- The fresh response writer for a request. -/
def ClientConn.init : ClientConn :=
  { pending := [], committed := none, wire := "" }

/-- `w.WriteHeader(code)`: commits status and headers once; later calls are
ignored (Go logs a superfluous-call warning). -/
def ClientConn.writeHeader (w : ClientConn) (code : Nat) : ClientConn :=
  match w.committed with
  | some _ => w
  | none => { w with committed := some (code, w.pending) }

/-- `w.Write(s)`: an implicit `WriteHeader(200)` if not yet committed, then
append the bytes. -/
def ClientConn.write (w : ClientConn) (s : String) : ClientConn :=
  let w2 := w.writeHeader 200
  { w2 with wire := w2.wire ++ s }

/-- `http.Error(w, msg, code)`: sets the error headers, writes the status and
the message followed by a newline. -/
def httpError (w : ClientConn) (msg : String) (code : Nat) : ClientConn :=
  let p := headerDel w.pending "Content-Length"
  let p := headerSet p "Content-Type" "text/plain; charset=utf-8"
  let p := headerSet p "X-Content-Type-Options" "nosniff"
  ClientConn.write (ClientConn.writeHeader { w with pending := p } code) (msg ++ "\n")

/-- The inbound request as the handler sees it: method, URL path and query,
headers, and the result of `io.ReadAll(r.Body)` (`none` = read error; a nil
body reads as `""`). -/
structure GoRequest where
  method : String
  urlPath : String
  rawQuery : String
  header : Header
  bodyRead : Option String
deriving DecidableEq, Repr

/-- The upstream response: status code and line, headers, and the bytes the
body yields (`none` = the buffered `io.ReadAll` or the streaming `io.Copy`
fails; on success the streamed and the buffered bytes are the same body). -/
structure UpstreamResp where
  statusCode : Nat
  status : String
  header : Header
  body : Option String
deriving DecidableEq, Repr

/-- Result of `client.Do`: transport failure or a response. -/
inductive UpstreamResult where
  | transportErr
  | ok (resp : UpstreamResp)
deriving DecidableEq, Repr

/-- The `Trace` record (main.go 811-822).  Timestamp and latency are opaque
numbers supplied by the caller; `len` of a streamed body is modelled on
characters. -/
structure GoTrace where
  id : String
  timestamp : Nat
  method : String
  url : String
  status : String
  latency : Nat
  sessionId : String
  requestHeader : Header
  requestBody : String
  responseBody : String
deriving DecidableEq, Repr

/-- Which `return` point of the handler was reached. -/
inductive HandlerExit where
  | notFound
  | bodyReadErr
  | requestHookErr
  | transportErr
  | streamCopyErr
  | streamed
  | respReadErr
  | respHookErr
  | luaRespHookErr
  | buffered
deriving DecidableEq, Repr

/-- What one handler run produced: the client connection state, the exit
point, the header set and body actually sent upstream (when the upstream
request was built), and the recorded trace (when one was created). -/
structure HandlerResult where
  conn : ClientConn
  exit : HandlerExit
  upstreamHeader : Option Header
  upstreamBody : Option String
  trace : Option GoTrace
deriving DecidableEq, Repr

/-- `targetURL.String()` (main.go 966-971): fixed scheme and host, inbound
path and query. -/
def targetURLString (r : GoRequest) : String :=
  "https://api.openai.com" ++ r.urlPath ++
    (if r.rawQuery == "" then "" else "?" ++ r.rawQuery)

/-- Header copy into the upstream request (main.go 1003-1018): every value is
added under its canonical key, except that any `Accept-Encoding` entry is
forced to the single value `identity`; if the result still has no
`Accept-Encoding`, it is set to `identity`. -/
def buildUpstreamHeader (rHeader : Header) : Header :=
  let h0 := rHeader.foldl
    (fun acc e =>
      e.2.foldl
        (fun acc2 v =>
          if e.1 == "Accept-Encoding" then headerSet acc2 e.1 "identity"
          else headerAdd acc2 e.1 v)
        acc)
    []
  if headerGet h0 "Accept-Encoding" == "" then headerSet h0 "Accept-Encoding" "identity"
  else h0

/-- Copy response headers onto the client writer (main.go 1045-1050). -/
def addAllHeaders (pending : Header) (src : Header) : Header :=
  src.foldl (fun acc e => e.2.foldl (fun a v => headerAdd a e.1 v) acc) pending

/-- Post-hook header update (main.go 1131-1137): for each key of the hook's
header map, delete it on the writer then add each value. -/
def applyHookHeaders (w : ClientConn) (mh : Header) : ClientConn :=
  mh.foldl
    (fun acc e =>
      let acc2 := { acc with pending := headerDel acc.pending e.1 }
      e.2.foldl (fun a v => { a with pending := headerAdd a.pending e.1 v }) acc2)
    w

/-- The `[STREAMING RESPONSE - %d bytes]` placeholder (main.go 1086). -/
def streamPlaceholder (n : Nat) : String :=
  "[STREAMING RESPONSE - " ++ toString n ++ " bytes]"

/-- The response half of the handler, from the point where `client.Do`
succeeded (main.go 1040-1177): copy headers, write the status, then branch on
the streaming classification. -/
def handleUpstreamResp (mgr : LuaHookManager) (respO : LuaOutcome)
    (gz : GzipOutcome) (br : BrotliOutcome) (resp : UpstreamResp)
    (w0 : ClientConn) (turl tid : String) (ts lat : Nat) (method : String)
    (rHeader : Header) (bodyBytes : String) (reqHeader : Header) : HandlerResult :=
  let w1 := { w0 with pending := addAllHeaders w0.pending resp.header }
  let w2 := ClientConn.writeHeader w1 resp.statusCode
  let contentType := headerGet resp.header "Content-Type"
  let isStreaming :=
    goContains contentType "text/event-stream" || goContains contentType "text/plain"
  if isStreaming then
    match resp.body with
    | none =>
      { conn := w2, exit := .streamCopyErr, upstreamHeader := some reqHeader,
        upstreamBody := some bodyBytes, trace := none }
    | some sb =>
      let w3 := ClientConn.write w2 sb
      let trace : GoTrace :=
        { id := tid, timestamp := ts, method := method, url := turl,
          status := resp.status, latency := lat,
          sessionId := headerGet resp.header "X-Session-Id",
          requestHeader := rHeader, requestBody := bodyBytes,
          responseBody := streamPlaceholder sb.length }
      { conn := w3, exit := .streamed, upstreamHeader := some reqHeader,
        upstreamBody := some bodyBytes, trace := some trace }
  else
    match resp.body with
    | none =>
      { conn := httpError w2 "Failed to read response" 500, exit := .respReadErr,
        upstreamHeader := some reqHeader, upstreamBody := some bodyBytes, trace := none }
    | some respBody0 =>
      let contentEncoding := headerGet resp.header "Content-Encoding"
      let dec :=
        if contentEncoding == "" then (respBody0, w2)
        else
          match decompressBody gz br respBody0 contentEncoding with
          | (d, none) => (d, { w2 with pending := headerDel w2.pending "Content-Encoding" })
          | (_, some _) => (respBody0, w2)
      let rh := responseHook dec.1 resp.header
      if rh.2.2.isSome then
        { conn := dec.2, exit := .respHookErr, upstreamHeader := some reqHeader,
          upstreamBody := some bodyBytes, trace := none }
      else
        let lr := ExecuteResponseHook mgr respO rh.1 rh.2.1
        if lr.2.2.isSome then
          { conn := dec.2, exit := .luaRespHookErr, upstreamHeader := some reqHeader,
            upstreamBody := some bodyBytes, trace := none }
        else
          let w4 := applyHookHeaders dec.2 lr.2.1
          let w5 := ClientConn.write w4 lr.1
          let trace : GoTrace :=
            { id := tid, timestamp := ts, method := method, url := turl,
              status := resp.status, latency := lat,
              sessionId := headerGet resp.header "X-Session-Id",
              requestHeader := rHeader, requestBody := bodyBytes,
              responseBody := lr.1 }
          { conn := w5, exit := .buffered, upstreamHeader := some reqHeader,
            upstreamBody := some bodyBytes, trace := some trace }

/-- The whole request handler of `startOpenAIForwarder` (main.go 953-1180).
`mgr` is the Lua hook manager state, `reqO`/`respO` the sandbox outcomes of
the two hook invocations, `gz`/`br` the codec outcomes, `up` the upstream
call's outcome, `tid`/`ts`/`lat` the generated trace id, timestamp and
latency.  `http.NewRequest` is modelled as total: the URL it receives is
produced by `url.URL.String()` and always re-parses. -/
def forwardHandler (mgr : LuaHookManager) (reqO respO : LuaOutcome)
    (gz : GzipOutcome) (br : BrotliOutcome) (up : UpstreamResult)
    (tid : String) (ts lat : Nat) (r : GoRequest) : HandlerResult :=
  let w0 := ClientConn.init
  if !(goStartsWith r.urlPath "/v1/") then
    { conn := httpError w0 "Only /v1/ endpoints are supported" 404, exit := .notFound,
      upstreamHeader := none, upstreamBody := none, trace := none }
  else
    let turl := targetURLString r
    match r.bodyRead with
    | none =>
      { conn := httpError w0 "Failed to read request body" 500, exit := .bodyReadErr,
        upstreamHeader := none, upstreamBody := none, trace := none }
    | some body0 =>
      let ph := promptHook mgr reqO body0 r.header
      if ph.2.2.isSome then
        { conn := httpError w0 "Request hook error" 500, exit := .requestHookErr,
          upstreamHeader := none, upstreamBody := none, trace := none }
      else
        let reqHeader := buildUpstreamHeader ph.2.1
        match up with
        | .transportErr =>
          { conn := httpError w0 "Failed to forward request" 502, exit := .transportErr,
            upstreamHeader := some reqHeader, upstreamBody := some ph.1, trace := none }
        | .ok resp =>
          handleUpstreamResp mgr respO gz br resp w0 turl tid ts lat r.method
            ph.2.1 ph.1 reqHeader

/-! ## Helper lemmas -/

/-- Both Lua hook executors always report a nil error. -/
theorem ExecuteRequestHook_err_none (lhm : LuaHookManager) (o : LuaOutcome)
    (b : String) (h : Header) : (ExecuteRequestHook lhm o b h).2.2 = none := by
  unfold ExecuteRequestHook
  split
  · rfl
  · cases o <;> rfl

theorem ExecuteResponseHook_err_none (lhm : LuaHookManager) (o : LuaOutcome)
    (b : String) (h : Header) : (ExecuteResponseHook lhm o b h).2.2 = none := by
  unfold ExecuteResponseHook
  split
  · rfl
  · cases o <;> rfl

/-- `promptHook` always reports a nil error: `messagesHook` never fails and
`json.Marshal` of a value produced by `Unmarshal` cannot fail. -/
theorem promptHook_err_none (lhm : LuaHookManager) (o : LuaOutcome)
    (b : String) (h : Header) : (promptHook lhm o b h).2.2 = none := by
  unfold promptHook
  split
  · rfl
  · split
    · split
      · simp only [messagesHook]
        exact ExecuteRequestHook_err_none lhm o _ h
      · rfl
    · exact ExecuteRequestHook_err_none lhm o b h
    · exact ExecuteRequestHook_err_none lhm o b h
  · exact ExecuteRequestHook_err_none lhm o b h
  · rfl

/-- The eviction step keeps exactly the most recent `tracesMax` elements. -/
theorem insertAll_eq_drop {α : Type} (l : List α) :
    insertAll l = l.drop (l.length - tracesMax) := by
  have hN : tracesMax = 100 := rfl
  induction l using List.reverseRecOn with
  | nil => rfl
  | append_singleton l t ih =>
    have hlt : (l ++ [t]).length = l.length + 1 := by simp
    have hstep : insertAll (l ++ [t]) = insertTrace (insertAll l) t := by
      simp [insertAll, List.foldl_append]
    rw [hstep, ih]
    simp only [insertTrace]
    by_cases hcase : l.length + 1 ≤ tracesMax
    · have h0 : l.length - tracesMax = 0 := by omega
      have h1 : (l ++ [t]).length - tracesMax = 0 := by omega
      rw [h0, List.drop_zero, h1, List.drop_zero, if_neg (by omega)]
    · have hge : tracesMax ≤ l.length := by omega
      have hdlen : (l.drop (l.length - tracesMax)).length = tracesMax := by
        rw [List.length_drop]; omega
      have hcondlen : (l.drop (l.length - tracesMax) ++ [t]).length = tracesMax + 1 := by
        simp [hdlen]
      rw [if_pos (by omega)]
      rw [hcondlen]
      have h2 : tracesMax + 1 - tracesMax = 1 := by omega
      rw [h2, List.drop_append_eq_append_drop, List.drop_drop, hdlen]
      have h3 : (1 : Nat) - tracesMax = 0 := by omega
      rw [h3, List.drop_zero, hlt, List.drop_append_eq_append_drop]
      have h5 : l.length + 1 - tracesMax - l.length = 0 := by omega
      rw [h5, List.drop_zero]
      have hidx : l.length - tracesMax + 1 = l.length + 1 - tracesMax := by omega
      rw [hidx]

/-! ## C3: bounded FIFO trace history -/

/-- C3: for every sequence of trace insertions into the bounded history with
capacity `tracesMax = 100`, after inserting `100 + k` traces (`k ≥ 1`) the
history is exactly the most recently inserted 100 traces in insertion order,
its length is exactly 100, and the length stays `≤ 100` after every
insertion (i.e. after every prefix of the sequence). -/
theorem trace_history_bounded_fifo {α : Type} (l : List α) (k : Nat)
    (h1 : l.length = tracesMax + k) (h2 : 1 ≤ k) :
    insertAll l = l.drop k ∧ (insertAll l).length = tracesMax ∧
    ∀ p : Nat, (insertAll (l.take p)).length ≤ tracesMax := by
  refine ⟨?_, ?_, ?_⟩
  · rw [insertAll_eq_drop]
    congr 1
    omega
  · rw [insertAll_eq_drop, List.length_drop]
    omega
  · intro p
    rw [insertAll_eq_drop, List.length_drop, List.length_take]
    omega

/-- Witness for C3 at a concrete run of 101 insertions. -/
theorem trace_history_bounded_fifo_witness :
    insertAll (List.range 101) = (List.range 101).drop 1 ∧
    (insertAll (List.range 101)).length = tracesMax ∧
    (insertAll ((List.range 101).take 50)).length ≤ tracesMax := by
  have h := trace_history_bounded_fifo (List.range 101) 1 (by decide) (by decide)
  exact ⟨h.1, h.2.1, h.2.2 50⟩

/-! ## C7: load-time validation and atomic install -/

/-- C7: `LoadHookScript` fails exactly on an unreadable file, a script that
fails to parse/execute, or a script defining neither entry point; every
failure leaves the manager state untouched, and success installs the script,
the two entry-point flags, and `enabled := true` together. -/
theorem load_hook_script_spec (lhm : LuaHookManager) (s : String) (o : LoadOutcome) :
    (LoadHookScript lhm none o = (lhm, some .unreadable)) ∧
    (LoadHookScript lhm (some s) .doStringErr = (lhm, some .syntaxInvalid)) ∧
    (LoadHookScript lhm (some s) (.ok false false) = (lhm, some .noEntryPoints)) ∧
    (∀ hr hp : Bool, (hr || hp) = true →
      LoadHookScript lhm (some s) (.ok hr hp) =
        ({ luaScript := s, enabled := true, hasRequest := hr, hasResponse := hp }, none)) ∧
    (∀ fc : Option String, (LoadHookScript lhm fc o).2 ≠ none →
      (LoadHookScript lhm fc o).1 = lhm) := by
  refine ⟨rfl, rfl, rfl, ?_, ?_⟩
  · intro hr hp hor
    cases hr <;> cases hp <;> simp_all [LoadHookScript]
  · intro fc hne
    cases fc with
    | none => rfl
    | some s2 =>
      cases o with
      | doStringErr => rfl
      | ok hr hp =>
        cases hr <;> cases hp <;> simp_all [LoadHookScript]

/-- Witness for C7: a successful load installs everything; a missing file
fails without touching the state. -/
theorem load_hook_script_spec_witness :
    LoadHookScript ⟨"old", true, true, true⟩ (some "new") (.ok true false) =
      ({ luaScript := "new", enabled := true, hasRequest := true, hasResponse := false }, none) ∧
    LoadHookScript ⟨"old", true, true, true⟩ none (.ok true false) =
      (⟨"old", true, true, true⟩, some .unreadable) := by
  have h := load_hook_script_spec ⟨"old", true, true, true⟩ "new" (.ok true false)
  exact ⟨h.2.2.2.1 true false (by decide), h.1⟩

/-! ## C8: decompression fail-open and pass-through -/

/-- C8: for gzip and br, a failure to construct or drain the decompression
stream returns the original bytes with a non-nil error (brotli construction
cannot fail in Go, so only its drain appears); every other encoding value,
including the empty string and `identity`, is a pass-through with a nil
error. -/
theorem decompress_fail_open (b : String) (gz : GzipOutcome) (br : BrotliOutcome) :
    (decompressBody .newReaderErr br b "gzip" = (b, some ())) ∧
    (decompressBody .readErr br b "gzip" = (b, some ())) ∧
    (decompressBody gz .readErr b "br" = (b, some ())) ∧
    (∀ e : String, e ≠ "gzip" → e ≠ "br" → decompressBody gz br b e = (b, none)) := by
  refine ⟨rfl, rfl, ?_, ?_⟩
  · unfold decompressBody
    rw [if_neg (by decide)]
    rfl
  · intro e h1 h2
    unfold decompressBody
    rw [if_neg (by simpa using h1), if_neg (by simpa using h2)]

/-- Witness for C8 at concrete bytes and encodings. -/
theorem decompress_fail_open_witness :
    decompressBody .newReaderErr .readErr "abc" "identity" = ("abc", none) ∧
    decompressBody .newReaderErr .readErr "abc" "" = ("abc", none) ∧
    decompressBody .newReaderErr .readErr "abc" "gzip" = ("abc", some ()) := by
  have h := decompress_fail_open "abc" .newReaderErr .readErr
  exact ⟨h.2.2.2 "identity" (by decide) (by decide), h.2.2.2 "" (by decide) (by decide), h.1⟩

/-! ## C2: hook execution fail-open (corrected: per-component fallback) -/

/-- Counterexample to C2 as stated: a script whose entry point returns a
non-string body but a valid header table is a wrong-typed return, yet
`ExecuteRequestHook` does not return the input header set — the returned
table is adopted. -/
theorem lua_hook_exact_passthrough_cex :
    ExecuteRequestHook ⟨"s", true, true, true⟩
        (.ok .lnil (.ltable [(.lstr "x-test", .ltable [(.lnum 1, .lstr "1")])]))
        "b" []
      = ("b", [("x-test", ["1"])], none) ∧
    (("b", [("x-test", ["1"])], none) : String × Header × Option Unit) ≠ ("b", [], none) := by
  refine ⟨by decide, by decide⟩

/-- C2 amended: for every script that raises an error during execution (load
or call) and for every script that does not define the relevant entry point,
both executors return exactly the input body and header set with a nil
error; for wrong-typed return values the fallback is per-component — only
when the body result is not a string and the header result is not a table is
the full input pair returned — and no error is ever reported. -/
theorem lua_hook_fail_open (lhm : LuaHookManager) (b : String) (h : Header)
    (rB rH : LuaValue) :
    (ExecuteRequestHook lhm .loadErr b h = (b, h, none)) ∧
    (ExecuteRequestHook lhm .callErr b h = (b, h, none)) ∧
    (ExecuteResponseHook lhm .loadErr b h = (b, h, none)) ∧
    (ExecuteResponseHook lhm .callErr b h = (b, h, none)) ∧
    (lhm.hasRequest = false → ∀ o, ExecuteRequestHook lhm o b h = (b, h, none)) ∧
    (lhm.hasResponse = false → ∀ o, ExecuteResponseHook lhm o b h = (b, h, none)) ∧
    ((∀ s, rB ≠ .lstr s) → (∀ t, rH ≠ .ltable t) →
      ExecuteRequestHook lhm (.ok rB rH) b h = (b, h, none) ∧
      ExecuteResponseHook lhm (.ok rB rH) b h = (b, h, none)) ∧
    ((ExecuteRequestHook lhm (.ok rB rH) b h).2.2 = none) ∧
    ((ExecuteResponseHook lhm (.ok rB rH) b h).2.2 = none) := by
  refine ⟨?_, ?_, ?_, ?_, ?_, ?_, ?_, ExecuteRequestHook_err_none .., ExecuteResponseHook_err_none ..⟩
  · unfold ExecuteRequestHook; split <;> rfl
  · unfold ExecuteRequestHook; split <;> rfl
  · unfold ExecuteResponseHook; split <;> rfl
  · unfold ExecuteResponseHook; split <;> rfl
  · intro hreq o
    unfold ExecuteRequestHook
    rw [if_pos]
    simp [hreq]
  · intro hresp o
    unfold ExecuteResponseHook
    rw [if_pos]
    simp [hresp]
  · intro hB hT
    constructor
    · unfold ExecuteRequestHook
      split
      · rfl
      · cases rB with
        | lstr s => exact absurd rfl (hB s)
        | lnil => cases rH with
          | ltable t => exact absurd rfl (hT t)
          | _ => rfl
        | lbool _ => cases rH with
          | ltable t => exact absurd rfl (hT t)
          | _ => rfl
        | lnum _ => cases rH with
          | ltable t => exact absurd rfl (hT t)
          | _ => rfl
        | ltable _ => cases rH with
          | ltable t => exact absurd rfl (hT t)
          | _ => rfl
    · unfold ExecuteResponseHook
      split
      · rfl
      · cases rB with
        | lstr s => exact absurd rfl (hB s)
        | lnil => cases rH with
          | ltable t => exact absurd rfl (hT t)
          | _ => rfl
        | lbool _ => cases rH with
          | ltable t => exact absurd rfl (hT t)
          | _ => rfl
        | lnum _ => cases rH with
          | ltable t => exact absurd rfl (hT t)
          | _ => rfl
        | ltable _ => cases rH with
          | ltable t => exact absurd rfl (hT t)
          | _ => rfl

/-- Witness for C2's amended theorem: failing scripts and fully wrong-typed
returns fall back to the inputs exactly. -/
theorem lua_hook_fail_open_witness :
    ExecuteRequestHook ⟨"s", true, true, true⟩ .callErr "b" [("A", ["1"])] =
      ("b", [("A", ["1"])], none) ∧
    ExecuteResponseHook ⟨"s", true, false, false⟩ (.ok .lnil .lnil) "b" [] = ("b", [], none) ∧
    ExecuteRequestHook ⟨"s", true, true, true⟩ (.ok (.lnum 3) (.lbool true)) "b" [] =
      ("b", [], none) := by
  have h1 := lua_hook_fail_open ⟨"s", true, true, true⟩ "b" [("A", ["1"])] .lnil .lnil
  have h2 := lua_hook_fail_open ⟨"s", true, false, false⟩ "b" ([] : Header) .lnil .lnil
  have h3 := lua_hook_fail_open ⟨"s", true, true, true⟩ "b" ([] : Header) (.lnum 3) (.lbool true)
  exact ⟨h1.2.1, h2.2.2.2.2.2.1 rfl _,
    (h3.2.2.2.2.2.2.1 (by intro s hs; cases hs) (by intro t ht; cases ht)).1⟩

/-! ## C1: hook failures are invisible to the client -/

/-- Exit points at which the client would see an error response (or an
aborted body) caused by a hook reporting a failure. -/
def exitIsHookError : HandlerExit → Bool
  | .requestHookErr => true
  | .respHookErr => true
  | .luaRespHookErr => true
  | _ => false

/-- `ExecuteRequestHook` on a failing sandbox run is an exact pass-through. -/
theorem ExecuteRequestHook_loadErr_eq (lhm : LuaHookManager) (b : String) (h : Header) :
    ExecuteRequestHook lhm .loadErr b h = (b, h, none) := by
  unfold ExecuteRequestHook; split <;> rfl

theorem ExecuteRequestHook_callErr_eq (lhm : LuaHookManager) (b : String) (h : Header) :
    ExecuteRequestHook lhm .callErr b h = (b, h, none) := by
  unfold ExecuteRequestHook; split <;> rfl

theorem ExecuteResponseHook_loadErr_eq (lhm : LuaHookManager) (b : String) (h : Header) :
    ExecuteResponseHook lhm .loadErr b h = (b, h, none) := by
  unfold ExecuteResponseHook; split <;> rfl

theorem ExecuteResponseHook_callErr_eq (lhm : LuaHookManager) (b : String) (h : Header) :
    ExecuteResponseHook lhm .callErr b h = (b, h, none) := by
  unfold ExecuteResponseHook; split <;> rfl

/-- The response half of the pipeline never exits through a hook-error
branch: the default response hook and the Lua executor always report a nil
error. -/
theorem handleUpstreamResp_no_hook_error (mgr : LuaHookManager) (respO : LuaOutcome)
    (gz : GzipOutcome) (br : BrotliOutcome) (resp : UpstreamResp) (w0 : ClientConn)
    (turl tid : String) (ts lat : Nat) (method : String) (rHeader : Header)
    (bodyBytes : String) (reqHeader : Header) :
    exitIsHookError (handleUpstreamResp mgr respO gz br resp w0 turl tid ts lat
      method rHeader bodyBytes reqHeader).exit = false := by
  unfold handleUpstreamResp
  split <;>
    simp [responseHook, ExecuteResponseHook_err_none, apply_ite] <;>
    split <;> rfl

/-- The whole handler never exits through a hook-error branch. -/
theorem forwardHandler_no_hook_error (mgr : LuaHookManager) (reqO respO : LuaOutcome)
    (gz : GzipOutcome) (br : BrotliOutcome) (up : UpstreamResult) (tid : String)
    (ts lat : Nat) (r : GoRequest) :
    exitIsHookError (forwardHandler mgr reqO respO gz br up tid ts lat r).exit = false := by
  unfold forwardHandler
  split
  · rfl
  · split
    · rfl
    · simp only [promptHook_err_none, Option.isSome_none, Bool.false_eq_true, if_false]
      split
      · rfl
      · exact handleUpstreamResp_no_hook_error ..

/-- C1: for every request, every hook-manager state, and every behaviour of
the sandbox, codec and upstream, the client never observes an error caused by
hook execution — no run of the handler exits through a hook-error branch
(the installed hooks never report a failure: `promptHook` and both Lua
executors always return a nil error) — and whenever the Lua request or
response hook itself fails (script load or call error), the hook layer hands
the pipeline exactly the pre-hook body and headers. -/
theorem client_never_sees_hook_error (mgr : LuaHookManager) (reqO respO : LuaOutcome)
    (gz : GzipOutcome) (br : BrotliOutcome) (up : UpstreamResult) (tid : String)
    (ts lat : Nat) (r : GoRequest) (b : String) (hs : Header) :
    exitIsHookError (forwardHandler mgr reqO respO gz br up tid ts lat r).exit = false ∧
    ExecuteRequestHook mgr .loadErr b hs = (b, hs, none) ∧
    ExecuteRequestHook mgr .callErr b hs = (b, hs, none) ∧
    ExecuteResponseHook mgr .loadErr b hs = (b, hs, none) ∧
    ExecuteResponseHook mgr .callErr b hs = (b, hs, none) :=
  ⟨forwardHandler_no_hook_error mgr reqO respO gz br up tid ts lat r,
   ExecuteRequestHook_loadErr_eq mgr b hs, ExecuteRequestHook_callErr_eq mgr b hs,
   ExecuteResponseHook_loadErr_eq mgr b hs, ExecuteResponseHook_callErr_eq mgr b hs⟩

/-! ## C6: streaming classification and the streaming path -/

/-- Reduction of the handler once the routing check, the body read and the
request hook have been passed and the upstream call succeeded. -/
theorem forwardHandler_ok (mgr : LuaHookManager) (reqO respO : LuaOutcome)
    (gz : GzipOutcome) (br : BrotliOutcome) (resp : UpstreamResp) (tid : String)
    (ts lat : Nat) (r : GoRequest) (b0 : String)
    (hp : goStartsWith r.urlPath "/v1/" = true)
    (hb : r.bodyRead = some b0) :
    forwardHandler mgr reqO respO gz br (.ok resp) tid ts lat r =
      handleUpstreamResp mgr respO gz br resp ClientConn.init (targetURLString r)
        tid ts lat r.method (promptHook mgr reqO b0 r.header).2.1
        (promptHook mgr reqO b0 r.header).1
        (buildUpstreamHeader (promptHook mgr reqO b0 r.header).2.1) := by
  simp only [forwardHandler, hp, hb, Bool.not_true, promptHook_err_none, Option.isSome_none]
  rfl

/-- Reduction of the response half on a streaming response whose copy
succeeds. -/
theorem handleUpstreamResp_streaming (mgr : LuaHookManager) (respO : LuaOutcome)
    (gz : GzipOutcome) (br : BrotliOutcome) (resp : UpstreamResp) (w0 : ClientConn)
    (turl tid : String) (ts lat : Nat) (method : String) (rHeader : Header)
    (bodyBytes : String) (reqHeader : Header) (sb : String)
    (hct : goContains (headerGet resp.header "Content-Type") "text/event-stream" = true)
    (hsb : resp.body = some sb) :
    handleUpstreamResp mgr respO gz br resp w0 turl tid ts lat method rHeader
        bodyBytes reqHeader =
      { conn := ClientConn.write
          (ClientConn.writeHeader
            { w0 with pending := addAllHeaders w0.pending resp.header } resp.statusCode) sb,
        exit := .streamed,
        upstreamHeader := some reqHeader,
        upstreamBody := some bodyBytes,
        trace := some
          { id := tid, timestamp := ts, method := method, url := turl,
            status := resp.status, latency := lat,
            sessionId := headerGet resp.header "X-Session-Id",
            requestHeader := rHeader, requestBody := bodyBytes,
            responseBody := streamPlaceholder sb.length } } := by
  simp only [handleUpstreamResp, hct, hsb, Bool.true_or]
  rfl

/-- C6: every upstream response whose `Content-Type` contains
`text/event-stream` takes the streaming path — the exit point is `streamed`,
the client receives exactly the upstream bytes, the recorded trace's
`response_body` is the synthetic placeholder naming the streamed byte count,
and the whole handler result is independent of the response-hook and
decompression behaviours (they are never invoked on this path). -/
theorem streaming_path_spec (mgr : LuaHookManager) (reqO respO : LuaOutcome)
    (gz : GzipOutcome) (br : BrotliOutcome) (resp : UpstreamResp)
    (tid : String) (ts lat : Nat) (r : GoRequest) (b0 sb : String)
    (hp : goStartsWith r.urlPath "/v1/" = true)
    (hb : r.bodyRead = some b0)
    (hct : goContains (headerGet resp.header "Content-Type") "text/event-stream" = true)
    (hsb : resp.body = some sb) :
    (forwardHandler mgr reqO respO gz br (.ok resp) tid ts lat r).exit = .streamed ∧
    (forwardHandler mgr reqO respO gz br (.ok resp) tid ts lat r).conn.wire = sb ∧
    (forwardHandler mgr reqO respO gz br (.ok resp) tid ts lat r).trace.map
        GoTrace.responseBody = some (streamPlaceholder sb.length) ∧
    ∀ (respO2 : LuaOutcome) (gz2 : GzipOutcome) (br2 : BrotliOutcome),
      forwardHandler mgr reqO respO2 gz2 br2 (.ok resp) tid ts lat r =
        forwardHandler mgr reqO respO gz br (.ok resp) tid ts lat r := by
  have key : ∀ (respO' : LuaOutcome) (gz' : GzipOutcome) (br' : BrotliOutcome),
      forwardHandler mgr reqO respO' gz' br' (.ok resp) tid ts lat r =
        { conn := ClientConn.write
            (ClientConn.writeHeader
              { ClientConn.init with
                pending := addAllHeaders ClientConn.init.pending resp.header }
              resp.statusCode) sb,
          exit := .streamed,
          upstreamHeader := some (buildUpstreamHeader (promptHook mgr reqO b0 r.header).2.1),
          upstreamBody := some (promptHook mgr reqO b0 r.header).1,
          trace := some
            { id := tid, timestamp := ts, method := r.method, url := targetURLString r,
              status := resp.status, latency := lat,
              sessionId := headerGet resp.header "X-Session-Id",
              requestHeader := (promptHook mgr reqO b0 r.header).2.1,
              requestBody := (promptHook mgr reqO b0 r.header).1,
              responseBody := streamPlaceholder sb.length } } := by
    intro respO' gz' br'
    rw [forwardHandler_ok mgr reqO respO' gz' br' resp tid ts lat r b0 hp hb,
      handleUpstreamResp_streaming mgr respO' gz' br' resp ClientConn.init
        (targetURLString r) tid ts lat r.method (promptHook mgr reqO b0 r.header).2.1
        (promptHook mgr reqO b0 r.header).1
        (buildUpstreamHeader (promptHook mgr reqO b0 r.header).2.1) sb hct hsb]
  refine ⟨?_, ?_, ?_, fun respO2 gz2 br2 => ?_⟩
  · rw [key respO gz br]
  · rw [key respO gz br]
    rfl
  · rw [key respO gz br]
    rfl
  · rw [key respO2 gz2 br2, key respO gz br]

/-- Witness for C6: a concrete `text/event-stream` response streams its bytes
to the client, records the placeholder trace body, and the run does not
depend on the response-hook or codec oracles. -/
theorem streaming_path_spec_witness :
    (forwardHandler ⟨"", false, false, false⟩ .loadErr .loadErr .readErr .readErr
        (.ok ⟨200, "200 OK", [("Content-Type", ["text/event-stream"])], some "data: hi"⟩)
        "t" 0 0 ⟨"POST", "/v1/chat/completions", "", [], some "hi"⟩).exit = .streamed ∧
    (forwardHandler ⟨"", false, false, false⟩ .loadErr .loadErr .readErr .readErr
        (.ok ⟨200, "200 OK", [("Content-Type", ["text/event-stream"])], some "data: hi"⟩)
        "t" 0 0 ⟨"POST", "/v1/chat/completions", "", [], some "hi"⟩).conn.wire = "data: hi" ∧
    forwardHandler ⟨"", false, false, false⟩ .loadErr .callErr .newReaderErr (.ok "z")
        (.ok ⟨200, "200 OK", [("Content-Type", ["text/event-stream"])], some "data: hi"⟩)
        "t" 0 0 ⟨"POST", "/v1/chat/completions", "", [], some "hi"⟩ =
      forwardHandler ⟨"", false, false, false⟩ .loadErr .loadErr .readErr .readErr
        (.ok ⟨200, "200 OK", [("Content-Type", ["text/event-stream"])], some "data: hi"⟩)
        "t" 0 0 ⟨"POST", "/v1/chat/completions", "", [], some "hi"⟩ := by
  have h := streaming_path_spec ⟨"", false, false, false⟩ .loadErr .loadErr .readErr .readErr
    ⟨200, "200 OK", [("Content-Type", ["text/event-stream"])], some "data: hi"⟩
    "t" 0 0 ⟨"POST", "/v1/chat/completions", "", [], some "hi"⟩ "hi" "data: hi"
    (by decide) rfl (by decide) rfl
  exact ⟨h.1, h.2.1, h.2.2.2 .callErr .newReaderErr (.ok "z")⟩

/-! ## C10: trace request fields are the post-hook values -/

/-- Every exit of the response half carries the post-hook body and the
upstream request header set it was given. -/
theorem handleUpstreamResp_upstream_fields (mgr : LuaHookManager) (respO : LuaOutcome)
    (gz : GzipOutcome) (br : BrotliOutcome) (resp : UpstreamResp) (w0 : ClientConn)
    (turl tid : String) (ts lat : Nat) (method : String) (rHeader : Header)
    (bodyBytes : String) (reqHeader : Header) :
    (handleUpstreamResp mgr respO gz br resp w0 turl tid ts lat method rHeader
      bodyBytes reqHeader).upstreamBody = some bodyBytes ∧
    (handleUpstreamResp mgr respO gz br resp w0 turl tid ts lat method rHeader
      bodyBytes reqHeader).upstreamHeader = some reqHeader := by
  unfold handleUpstreamResp
  split <;>
    simp [responseHook, ExecuteResponseHook_err_none, apply_ite]

/-- When the response half records a trace, the trace's request fields are
exactly the post-hook body and headers it was handed. -/
theorem handleUpstreamResp_trace_posthook (mgr : LuaHookManager) (respO : LuaOutcome)
    (gz : GzipOutcome) (br : BrotliOutcome) (resp : UpstreamResp) (w0 : ClientConn)
    (turl tid : String) (ts lat : Nat) (method : String) (rHeader : Header)
    (bodyBytes : String) (reqHeader : Header) (t : GoTrace)
    (ht : (handleUpstreamResp mgr respO gz br resp w0 turl tid ts lat method rHeader
      bodyBytes reqHeader).trace = some t) :
    t.requestBody = bodyBytes ∧ t.requestHeader = rHeader := by
  unfold handleUpstreamResp at ht
  split at ht <;>
    simp only [responseHook, ExecuteResponseHook_err_none, Option.isSome_none,
      Bool.false_eq_true, if_false, apply_ite] at ht <;>
    split at ht <;>
    simp only [Option.some.injEq, reduceCtorEq] at ht <;>
    subst ht <;>
    exact ⟨rfl, rfl⟩

/-- Counterexample to C10 as stated: with no hooks active and a client request
carrying no headers, the recorded trace's `request_headers` is empty while
the header set actually forwarded upstream additionally carries the forced
`Accept-Encoding: identity`; the trace does not hold the headers that were
forwarded upstream. -/
theorem trace_headers_not_forwarded_headers_cex :
    (forwardHandler ⟨"", false, false, false⟩ .loadErr .loadErr .readErr .readErr
        (.ok ⟨200, "200 OK", [("Content-Type", ["application/json"])], some "ok"⟩)
        "t" 0 0 ⟨"POST", "/v1/chat/completions", "", [], some "x"⟩).trace.map
      GoTrace.requestHeader = some [] ∧
    (forwardHandler ⟨"", false, false, false⟩ .loadErr .loadErr .readErr .readErr
        (.ok ⟨200, "200 OK", [("Content-Type", ["application/json"])], some "ok"⟩)
        "t" 0 0 ⟨"POST", "/v1/chat/completions", "", [], some "x"⟩).upstreamHeader =
      some [("Accept-Encoding", ["identity"])] ∧
    (forwardHandler ⟨"", false, false, false⟩ .loadErr .loadErr .readErr .readErr
        (.ok ⟨200, "200 OK", [("Content-Type", ["application/json"])], some "ok"⟩)
        "t" 0 0 ⟨"POST", "/v1/chat/completions", "", [], some "x"⟩).trace.map
      GoTrace.requestHeader ≠
    (forwardHandler ⟨"", false, false, false⟩ .loadErr .loadErr .readErr .readErr
        (.ok ⟨200, "200 OK", [("Content-Type", ["application/json"])], some "ok"⟩)
        "t" 0 0 ⟨"POST", "/v1/chat/completions", "", [], some "x"⟩).upstreamHeader := by
  refine ⟨by decide, by decide, by decide⟩

/-- C10 amended: on both the streaming and the buffered path, every recorded
trace's `request_body` and `request_headers` hold the post-hook
(hook-transformed) body and headers — not what the client originally sent;
the forwarded upstream body is exactly the traced body, while the forwarded
upstream header set is the traced header set transformed by the
`Accept-Encoding: identity` forcing (`buildUpstreamHeader`). -/
theorem trace_records_posthook_request (mgr : LuaHookManager) (reqO respO : LuaOutcome)
    (gz : GzipOutcome) (br : BrotliOutcome) (resp : UpstreamResp) (tid : String)
    (ts lat : Nat) (r : GoRequest) (b0 : String) (t : GoTrace)
    (hp : goStartsWith r.urlPath "/v1/" = true)
    (hb : r.bodyRead = some b0)
    (ht : (forwardHandler mgr reqO respO gz br (.ok resp) tid ts lat r).trace = some t) :
    t.requestBody = (promptHook mgr reqO b0 r.header).1 ∧
    t.requestHeader = (promptHook mgr reqO b0 r.header).2.1 ∧
    (forwardHandler mgr reqO respO gz br (.ok resp) tid ts lat r).upstreamBody =
      some t.requestBody ∧
    (forwardHandler mgr reqO respO gz br (.ok resp) tid ts lat r).upstreamHeader =
      some (buildUpstreamHeader t.requestHeader) := by
  rw [forwardHandler_ok mgr reqO respO gz br resp tid ts lat r b0 hp hb] at ht ⊢
  have hup := handleUpstreamResp_upstream_fields mgr respO gz br resp ClientConn.init
    (targetURLString r) tid ts lat r.method (promptHook mgr reqO b0 r.header).2.1
    (promptHook mgr reqO b0 r.header).1
    (buildUpstreamHeader (promptHook mgr reqO b0 r.header).2.1)
  have htr := handleUpstreamResp_trace_posthook mgr respO gz br resp ClientConn.init
    (targetURLString r) tid ts lat r.method (promptHook mgr reqO b0 r.header).2.1
    (promptHook mgr reqO b0 r.header).1
    (buildUpstreamHeader (promptHook mgr reqO b0 r.header).2.1) t ht
  refine ⟨htr.1, htr.2, ?_, ?_⟩
  · rw [hup.1, htr.1]
  · rw [hup.2, htr.2]

/-- Witness for C10's amended theorem at a concrete buffered exchange. -/
theorem trace_records_posthook_request_witness :
    ({ id := "t", timestamp := 0, method := "POST",
       url := "https://api.openai.com/v1/chat/completions", status := "200 OK",
       latency := 0, sessionId := "", requestHeader := [], requestBody := "x",
       responseBody := "ok" } : GoTrace).requestBody =
      (promptHook ⟨"", false, false, false⟩ .loadErr "x" []).1 ∧
    (forwardHandler ⟨"", false, false, false⟩ .loadErr .loadErr .readErr .readErr
        (.ok ⟨200, "200 OK", [("Content-Type", ["application/json"])], some "ok"⟩)
        "t" 0 0 ⟨"POST", "/v1/chat/completions", "", [], some "x"⟩).upstreamBody =
      some ({ id := "t", timestamp := 0, method := "POST",
              url := "https://api.openai.com/v1/chat/completions", status := "200 OK",
              latency := 0, sessionId := "", requestHeader := [], requestBody := "x",
              responseBody := "ok" } : GoTrace).requestBody := by
  have h := trace_records_posthook_request ⟨"", false, false, false⟩ .loadErr .loadErr
    .readErr .readErr ⟨200, "200 OK", [("Content-Type", ["application/json"])], some "ok"⟩
    "t" 0 0 ⟨"POST", "/v1/chat/completions", "", [], some "x"⟩ "x"
    { id := "t", timestamp := 0, method := "POST",
      url := "https://api.openai.com/v1/chat/completions", status := "200 OK",
      latency := 0, sessionId := "", requestHeader := [], requestBody := "x",
      responseBody := "ok" }
    (by decide) rfl (by decide)
  exact ⟨h.1, h.2.2.1⟩

/-! ## C4: response-hook header mutations never reach the wire (code bug) -/

/-- The loaded-script state of end-to-end scenario 2: a script defining only
`processResponse`. -/
def scenario2Mgr : LuaHookManager :=
  ⟨"-- a script defining only processResponse that adds x-test", true, false, true⟩

/-- The sandbox outcome of scenario 2's `processResponse`: it returns the
body unchanged and the header table with `x-test: 1` added. -/
def scenario2RespOutcome : LuaOutcome :=
  .ok (.lstr "ok")
    (.ltable [(.lstr "content-type", .ltable [(.lnum 1, .lstr "application/json")]),
              (.lstr "x-test", .ltable [(.lnum 1, .lstr "1")])])

/-- The handler run of scenario 2 on a buffered upstream response. -/
def scenario2Res : HandlerResult :=
  forwardHandler scenario2Mgr .loadErr scenario2RespOutcome .readErr .readErr
    (.ok ⟨200, "200 OK", [("Content-Type", ["application/json"])], some "ok"⟩)
    "t" 0 0 ⟨"POST", "/v1/chat/completions", "", [], some "ping"⟩

/-- C4 (code bug): the handler calls `WriteHeader` — committing the status
line and the header snapshot to the wire — before the response hook runs, so
the hook's `x-test: 1` mutation lands only in the no-longer-consulted header
map: the committed (wire) headers are exactly the upstream headers without
`x-test`, while the dead pending map does carry `X-Test: 1`.  The claim's
promised behaviour (every buffered response carries `x-test: 1`) does not
hold on this run. -/
theorem response_hook_header_never_reaches_wire :
    scenario2Res.exit = .buffered ∧
    scenario2Res.conn.committed = some (200, [("Content-Type", ["application/json"])]) ∧
    scenario2Res.conn.pending =
      [("Content-Type", ["application/json"]), ("X-Test", ["1"])] ∧
    scenario2Res.conn.wire = "ok" := by
  refine ⟨by decide, by decide, by decide, by decide⟩

/-! ## C5: scenario 1 forwards a re-marshalled body (corrected) -/

/-- The literal request body of end-to-end scenario 1. -/
def scenario1Body : String :=
  "\x7b\"messages\":[\x7b\"role\":\"user\",\"content\":\"Hello!\"\x7d]\x7d"

/-- What the gateway actually forwards for scenario 1: `promptHook`
re-marshals the parsed body, sorting object keys. -/
def scenario1Fwd : String :=
  "\x7b\"messages\":[\x7b\"content\":\"Hello!\",\"role\":\"user\"\x7d]\x7d"

/-- The handler run of scenario 1: no loaded hook script, buffered upstream
response. -/
def scenario1Res : HandlerResult :=
  forwardHandler ⟨"", false, false, false⟩ .loadErr .loadErr .readErr .readErr
    (.ok ⟨200, "200 OK", [("Content-Type", ["application/json"])], some "resp"⟩)
    "t" 0 0 ⟨"POST", "/v1/chat/completions", "", [], some scenario1Body⟩

/-- The `messages` value of a JSON body, in marshalled form (for
value-for-value comparison). -/
def messagesValue (s : String) : Option String :=
  match jsonParse s with
  | some (.jobj f) => (jsonLookup f "messages").map (goMarshalOf s.length)
  | _ => none

/-- Counterexample to C5 as stated: the body forwarded upstream for scenario
1, and the recorded trace's `request_body`, are not byte-for-byte the literal
input — `promptHook` re-marshals the JSON with sorted object keys even when
no hook script is loaded. -/
theorem scenario1_not_literal_cex :
    scenario1Res.upstreamBody ≠ some scenario1Body ∧
    scenario1Res.trace.map GoTrace.requestBody ≠ some scenario1Body := by
  refine ⟨by decide, by decide⟩

/-- C5 amended: for scenario 1's input the forwarded body and the trace's
`request_body` are the sorted-key compact re-serialization of the parsed
input — value-for-value equal to it (the `messages` array is unchanged as a
JSON value) but with the object keys reordered. -/
theorem scenario1_remarshalled :
    scenario1Res.upstreamBody = some scenario1Fwd ∧
    scenario1Res.trace.map GoTrace.requestBody = some scenario1Fwd ∧
    messagesValue scenario1Fwd = messagesValue scenario1Body ∧
    messagesValue scenario1Fwd ≠ none := by
  refine ⟨by decide, by decide, by decide, by decide⟩

/-! ## C9: header multimap round-trip through the Lua table representation -/

/-- The Lua-table entry `httpHeaderToLuaTable` builds for one header entry:
lower-cased key, 1-indexed array of the values. -/
def headerEntryToLua (e : String × List String) : LuaValue × LuaValue :=
  (.lstr (goToLower e.1), .ltable ((enumFrom1 1 e.2).map fun p => (.lnum p.1, .lstr p.2)))

/-- Reading the value strings back out of the 1-indexed array recovers the
original value list. -/
theorem enumFrom1_values (vs : List String) (i : Int) :
    (((enumFrom1 i vs).map fun p => (LuaValue.lnum p.1, LuaValue.lstr p.2)).map
      fun p => lvString p.2) = vs := by
  induction vs generalizing i with
  | nil => rfl
  | cons v vs ih =>
    simp only [enumFrom1, List.map_cons]
    rw [ih]
    rfl

/-- `RawSetString` on an absent key appends. -/
theorem rawSetString_notmem (t : List (LuaValue × LuaValue)) (k : String) (v : LuaValue)
    (habs : t.any (fun e => isStrKey e.1 k) = false) :
    rawSetString t k v = t ++ [(LuaValue.lstr k, v)] := by
  unfold rawSetString
  rw [if_neg (by simp [habs])]

/-- Go map assignment on an absent key appends. -/
theorem assocSet_notmem (h : Header) (k : String) (vs : List String)
    (habs : h.any (fun e => e.1 == k) = false) :
    assocSet h k vs = h ++ [(k, vs)] := by
  unfold assocSet
  rw [if_neg (by simp [habs])]

/-- The encoding fold: with no key collisions after lower-casing, every
header entry is appended in order. -/
theorem httpHeaderToLuaTable_fold (h : Header) (t : List (LuaValue × LuaValue))
    (hdisj : ∀ e ∈ h, t.any (fun x => isStrKey x.1 (goToLower e.1)) = false)
    (hnd : (h.map fun e => goToLower e.1).Nodup) :
    h.foldl
      (fun t e =>
        rawSetString t (goToLower e.1)
          (.ltable ((enumFrom1 1 e.2).map fun p => (.lnum p.1, .lstr p.2))))
      t = t ++ h.map headerEntryToLua := by
  induction h generalizing t with
  | nil => simp
  | cons e h ih =>
    rw [List.foldl_cons,
      rawSetString_notmem _ _ _ (hdisj e (List.mem_cons_self e h))]
    have hne : goToLower e.1 ∉ h.map fun e2 => goToLower e2.1 :=
      (List.nodup_cons.mp hnd).1
    rw [ih]
    · simp [headerEntryToLua]
    · intro e' he'
      have h1 : t.any (fun x => isStrKey x.1 (goToLower e'.1)) = false :=
        hdisj e' (List.mem_cons_of_mem e he')
      have h2 : goToLower e.1 ≠ goToLower e'.1 := by
        intro hc
        exact hne (hc ▸ List.mem_map_of_mem (fun e2 => goToLower e2.1) he')
      rw [List.any_append, h1]
      simp [headerEntryToLua, isStrKey, h2]
    · exact (List.nodup_cons.mp hnd).2

/-- `httpHeaderToLuaTable` with no key collisions is entrywise. -/
theorem httpHeaderToLuaTable_eq (h : Header)
    (hnd : (h.map fun e => goToLower e.1).Nodup) :
    httpHeaderToLuaTable h = h.map headerEntryToLua := by
  have hfold := httpHeaderToLuaTable_fold h [] (by simp) hnd
  simpa [httpHeaderToLuaTable] using hfold

/-- The decoding fold over entrywise-encoded headers: with distinct keys,
every entry is appended back in order with its values recovered. -/
theorem luaTableToHttpHeader_fold (l : Header) (hs : Header)
    (hdisj : ∀ e ∈ l, hs.any (fun x => x.1 == goToLower e.1) = false)
    (hnd : (l.map fun e => goToLower e.1).Nodup) :
    (l.map headerEntryToLua).foldl
      (fun hs kv =>
        match kv.2 with
        | .ltable vt => assocSet hs (lvString kv.1) (vt.map fun p => lvString p.2)
        | _ => hs)
      hs = hs ++ l.map fun e => (goToLower e.1, e.2) := by
  induction l generalizing hs with
  | nil => simp
  | cons e l ih =>
    simp only [List.map_cons, List.foldl_cons]
    have hstep :
        (match (headerEntryToLua e).2 with
          | .ltable vt => assocSet hs (lvString (headerEntryToLua e).1)
              (vt.map fun p => lvString p.2)
          | _ => hs) = hs ++ [(goToLower e.1, e.2)] := by
      simp only [headerEntryToLua]
      rw [enumFrom1_values]
      exact assocSet_notmem hs (goToLower e.1) e.2 (hdisj e (List.mem_cons_self e l))
    rw [hstep]
    have hne : goToLower e.1 ∉ l.map fun e2 => goToLower e2.1 :=
      (List.nodup_cons.mp hnd).1
    rw [ih]
    · simp
    · intro e' he'
      have h1 : hs.any (fun x => x.1 == goToLower e'.1) = false :=
        hdisj e' (List.mem_cons_of_mem e he')
      have h2 : goToLower e.1 ≠ goToLower e'.1 := by
        intro hc
        exact hne (hc ▸ List.mem_map_of_mem (fun e2 => goToLower e2.1) he')
      rw [List.any_append, h1]
      simp [h2]
    · exact (List.nodup_cons.mp hnd).2

/-- Counterexample to C9 as stated: a multimap whose key contains an upper
case letter does not survive the round trip — `httpHeaderToLuaTable` lower
cases the key and `luaTableToHttpHeader` keeps it lower-cased, so the
original multimap is not reproduced. -/
theorem header_roundtrip_cex :
    luaTableToHttpHeader (httpHeaderToLuaTable [("X-Test", ["1"])]) =
      [("x-test", ["1"])] ∧
    ([("x-test", ["1"])] : Header) ≠ [("X-Test", ["1"])] := by
  refine ⟨by decide, by decide⟩

/-- C9 amended: the round trip reproduces the multimap with every key
lower-cased; in particular, for every header multimap whose keys are already
all lower case (and distinct, as Go map keys are), encoding to the Lua table
representation and decoding back is the identity — value lists of any
length, including empty and duplicate-valued ones, are preserved in order. -/
theorem header_roundtrip_lowercase (h : Header)
    (hlow : ∀ e ∈ h, goToLower e.1 = e.1)
    (hnd : (h.map Prod.fst).Nodup) :
    luaTableToHttpHeader (httpHeaderToLuaTable h) = h := by
  have hmapeq : (h.map fun e => goToLower e.1) = h.map Prod.fst :=
    List.map_congr_left fun e he => hlow e he
  have hnd2 : (h.map fun e => goToLower e.1).Nodup := by rw [hmapeq]; exact hnd
  rw [httpHeaderToLuaTable_eq h hnd2]
  unfold luaTableToHttpHeader
  rw [luaTableToHttpHeader_fold h [] (by simp) hnd2]
  have hid : ∀ e ∈ h, (goToLower e.1, e.2) = e := by
    intro e he
    rw [hlow e he]
  rw [List.map_congr_left hid]
  simp

/-- Witness for C9's amended theorem: a lower-cased multimap with a
duplicate-valued key and an empty-valued key round-trips identically. -/
theorem header_roundtrip_lowercase_witness :
    luaTableToHttpHeader (httpHeaderToLuaTable [("x-test", ["1", "1"]), ("a", [])]) =
      [("x-test", ["1", "1"]), ("a", [])] :=
  header_roundtrip_lowercase [("x-test", ["1", "1"]), ("a", [])] (by decide) (by decide)

end OpenAIProxy
